import Mathlib

/-!
Shallow embedding of the Index Coordination & Document Store subsystem
(`index_server.py`, with the HTTP front end of `flask_demo.py` at its
boundary).  External collaborators (the document loader, the vector
index's per-document insertion, the retrieval+synthesis engine, and the
success of durable writes) are abstracted as an environment supplied to
each operation; everything the coordinator itself does is translated
directly from the source.
-/

namespace IndexServer

/-- A document part produced by the loader (`SimpleDirectoryReader.load_data`):
a loader-assigned identifier `id_` and the part's full text. -/
structure Document where
  id_ : String
  text : String
deriving Repr, DecidableEq

/-- The in-memory vector index, abstracted as the list of per-document
insertions performed on it (effective doc id, inserted text).  Chunking
internals are opaque collaborator behaviour and are not modelled. -/
abbrev IndexData := List (String × String)

/-- State of the durable index snapshot directory (`./saved_index`). -/
inductive IndexDirState
  | absent
  | corrupt
  | saved (d : IndexData)
deriving Repr, DecidableEq

/-- State of the durable pickle file (`stored_documents.pkl`):
absent, unpicklable bytes, a pickle of a non-dict value, or a pickled dict. -/
inductive PklState
  | absent
  | corrupt
  | nonDict
  | dict (d : List (String × String))
deriving Repr, DecidableEq

/-- Durable storage: the two independent persistence artifacts. -/
structure Durable where
  indexDir : IndexDirState
  pkl : PklState
deriving Repr, DecidableEq

/-- The in-memory `stored_docs` global.  After `initialize_index` loads a
pickle of a non-dict value, the global really holds a non-dict (the source
performs no type check at load time), so the model keeps that state. -/
inductive StoredDocs
  | dict (d : List (String × String))
  | notDict
deriving Repr, DecidableEq

/-- The module-level mutable state of `index_server.py`:
`index`, `stored_docs`, and the durable artifacts they persist to. -/
structure ServerState where
  index : Option IndexData
  stored_docs : StoredDocs
  durable : Durable
deriving Repr, DecidableEq

/-- Model of `os.path.basename` for POSIX paths: the suffix after the last slash
(computed as the longest slash-free suffix). -/
def basename (p : String) : String :=
  String.mk ((p.data.reverse.takeWhile (fun c => c ≠ '/')).reverse)

/-- Python dict assignment `d[k] = v` on an insertion-ordered dict, as an
association list: replace in place when the key exists, append otherwise. -/
def dictSet (d : List (String × String)) (k v : String) : List (String × String) :=
  if d.any (fun p => p.1 = k) then d.map (fun p => if p.1 = k then (k, v) else p)
  else d ++ [(k, v)]

/-- Python dict lookup `d.get(k)` on the association-list model. -/
def dictFind (d : List (String × String)) (k : String) : Option String :=
  (d.find? (fun p => p.1 = k)).map (fun p => p.2)

/-- Model of `initialize_index`: load the index snapshot, falling back to a freshly
persisted empty index when it is absent or fails to load; load the pickled
previews, falling back to an empty dict when absent or unpicklable (a
loadable non-dict pickle is taken as-is — the source has no type check here). -/
def initialize_index (s : ServerState) : ServerState :=
  let (idx, indexDir) :=
    match s.durable.indexDir with
    | .saved d => (d, IndexDirState.saved d)
    | .corrupt => (([] : IndexData), IndexDirState.saved [])
    | .absent => (([] : IndexData), IndexDirState.saved [])
  let docs :=
    match s.durable.pkl with
    | .dict d => StoredDocs.dict d
    | .nonDict => StoredDocs.notDict
    | .corrupt => StoredDocs.dict []
    | .absent => StoredDocs.dict []
  { index := some idx, stored_docs := docs
    durable := { indexDir := indexDir, pkl := s.durable.pkl } }

/-- Outcome of one call into the retrieval+synthesis collaborator
(`index.as_query_engine(...).query(...)`): a response, or a raised
exception carrying message `msg`. -/
inductive EngineResult
  | ok (response : String)
  | raised (msg : String)
deriving Repr, DecidableEq

/-- Model of `query_index`: returns the string delivered to the caller, paired with
whether the retrieval/synthesis collaborator was invoked at all. -/
def query_index (s : ServerState) (engine : String → EngineResult)
    (query_text : String) : String × Bool :=
  match s.index with
  | none => ("Error: Index not ready.", false)
  | some _ =>
    match engine query_text with
    | .ok r => (r, true)
    | .raised e => ("Error during query: " ++ e, true)

/-- Result of the `/query` route of the HTTP front end (`flask_demo.py`). -/
inductive FlaskQueryResult
  | badRequest
  | ok (text : String)
deriving Repr, DecidableEq

/-- The `/query` route: an absent `text` parameter yields a 400 error
without calling the server; otherwise the remote `query_index` result is
stringified into the 200 response.  Second component: whether the
retrieval/synthesis collaborator ran. -/
def flask_query (s : ServerState) (engine : String → EngineResult)
    (text : Option String) : FlaskQueryResult × Bool :=
  match text with
  | none => (.badRequest, false)
  | some t =>
    let (r, invoked) := query_index s engine t
    (.ok r, invoked)

/-- Environment for one `insert_into_index` call: whether the given path
exists, what the loader yields (`none` models the loader raising),
which per-part `insert_document` calls succeed (by position), and whether
the two persistence writes succeed. -/
structure InsertEnv where
  pathExists : Bool
  load : String → Option (List Document)
  insertOk : Nat → Bool
  persistIndexOk : Bool
  persistPklOk : Bool

/-- The effective document identifier (lines 108–112): the caller-supplied
`doc_id` when not `None`, else the loader-assigned id; if the result is
falsy (empty), the file's base name. -/
def effectiveId (doc_id : Option String) (path : String) (d : Document) : String :=
  let e := match doc_id with
    | some x => x
    | none => d.id_
  if e = "" then basename path else e

/-- The preview stored for a document (line 121): its first 200 characters,
plus an ellipsis marker when the text is longer than 200 characters. -/
def preview (text : String) : String :=
  text.take 200 ++ (if text.length > 200 then "..." else "")

/-- The per-part loop of `insert_into_index` (lines 106–124) when
`stored_docs` is a dict: walk the loaded parts (the counter `n` is the
position the environment consults for `insert_document` success),
appending the insertion to the index, updating the preview dict and the
`processed_ids` list on success, and skipping the part on failure. -/
def insertLoop (env : InsertEnv) (doc_id : Option String) (path : String) :
    List Document → Nat → IndexData × List (String × String) × List String →
    IndexData × List (String × String) × List String
  | [], _, acc => acc
  | d :: rest, n, (idx, docs, processed) =>
    let eid := effectiveId doc_id path d
    if env.insertOk n then
      insertLoop env doc_id path rest (n + 1)
        (idx ++ [(eid, d.text)], dictSet docs eid (preview d.text),
         if processed.contains eid then processed else processed ++ [eid])
    else
      insertLoop env doc_id path rest (n + 1) (idx, docs, processed)

/-- When `stored_docs` is not a dict, the preview assignment
`stored_docs[effective_doc_id] = preview` raises on the first part whose
`insert_document` succeeded; that part's insertion has already mutated the
index.  This computes the insertions performed before the raise escapes to
the outer handler. -/
def insertionsBeforeRaise (env : InsertEnv) (doc_id : Option String) (path : String) :
    List Document → Nat → IndexData
  | [], _ => []
  | d :: rest, n =>
    if env.insertOk n then [(effectiveId doc_id path d, d.text)]
    else insertionsBeforeRaise env doc_id path rest (n + 1)

/-- Result of `insert_into_index`: the new server state and the value
returned to the caller.  Every `return` statement in the source is bare,
so the Python function returns `None` on every path; `ret` records that
caller-visible value (`some msg` would be an error value handed back —
the source never produces one). -/
structure InsertResult where
  state : ServerState
  ret : Option String
deriving Repr, DecidableEq

/-- Model of `insert_into_index`: not-ready and missing-path pre-checks return with
no state change; a raising loader is caught by the outer handler; zero
loaded parts return without persisting; otherwise each part is processed
by `insertLoop` and, when at least one identifier was processed, both
artifacts are persisted (each write independently able to fail, leaving
the prior durable value). -/
def insert_into_index (s : ServerState) (env : InsertEnv) (doc_file_path : String)
    (doc_id : Option String) : InsertResult :=
  match s.index with
  | none => { state := s, ret := none }
  | some idx0 =>
    if env.pathExists = false then { state := s, ret := none }
    else
      match env.load doc_file_path with
      | none => { state := s, ret := none }
      | some documents =>
        if documents = [] then { state := s, ret := none }
        else
          match s.stored_docs with
          | .dict d0 =>
            let (idx, docs, processed) :=
              insertLoop env doc_id doc_file_path documents 0 (idx0, d0, [])
            let durable :=
              if processed = [] then s.durable
              else
                { indexDir :=
                    if env.persistIndexOk then .saved idx else s.durable.indexDir
                  pkl := if env.persistPklOk then .dict docs else s.durable.pkl }
            { state := { index := some idx, stored_docs := .dict docs, durable := durable }
              ret := none }
          | .notDict =>
            let idx := idx0 ++ insertionsBeforeRaise env doc_id doc_file_path documents 0
            { state := { s with index := some idx }, ret := none }

/-- Model of `get_documents_list`: when `stored_docs` is not a dict, attempt a
one-time reload from the pickle file (absent, unpicklable, or non-dict
content all reset to empty); then return the dict as `(id, preview)`
pairs, together with the possibly-repaired state. -/
def get_documents_list (s : ServerState) : List (String × String) × ServerState :=
  match s.stored_docs with
  | .dict d => (d, s)
  | .notDict =>
    match s.durable.pkl with
    | .dict d => (d, { s with stored_docs := .dict d })
    | _ => ([], { s with stored_docs := .dict [] })

/-- The insertions recorded in the in-memory index, empty when the index is
uninitialized. -/
def indexChunks (s : ServerState) : IndexData :=
  s.index.getD []

/-- Whether at least one of the first `count` per-part `insert_document`
calls succeeds in environment `env`. -/
def anyInsertOk (env : InsertEnv) (count : Nat) : Bool :=
  (List.range count).any (fun i => env.insertOk i)

/-! Concrete fixtures used by counterexamples and witnesses. -/

/-- A minimal initialized server state. -/
def initState : ServerState :=
  { index := some [], stored_docs := .dict []
    durable := { indexDir := .saved [], pkl := .dict [] } }

/-- The module state before `initialize_index` has run: `index` is `None`. -/
def rawState : ServerState :=
  { index := none, stored_docs := .dict []
    durable := { indexDir := .absent, pkl := .absent } }

/-- An engine that answers every query. -/
def okEngine : String → EngineResult := fun _ => .ok "answer"

/-- An engine that raises with message "boom" on every query. -/
def boomEngine : String → EngineResult := fun _ => .raised "boom"

/-- An insert environment where everything succeeds and the loader yields a
single part. -/
def goodEnv : InsertEnv :=
  { pathExists := true
    load := fun _ => some [{ id_ := "part-0", text := "hello world" }]
    insertOk := fun _ => true
    persistIndexOk := true, persistPklOk := true }

/-- An insert environment whose single loaded part carries a loader-assigned
identifier. -/
def loaderIdEnv : InsertEnv :=
  { pathExists := true
    load := fun _ => some [{ id_ := "loader-id", text := "txt" }]
    insertOk := fun _ => true
    persistIndexOk := true, persistPklOk := true }

/-- An insert environment for a path that does not exist. -/
def missingEnv : InsertEnv :=
  { pathExists := false
    load := fun _ => some [{ id_ := "a", text := "t" }]
    insertOk := fun _ => true
    persistIndexOk := true, persistPklOk := true }

/-- An insert environment with two loaded parts where the first part's
`insert_document` call fails and the second succeeds. -/
def mixedEnv : InsertEnv :=
  { pathExists := true
    load := fun _ => some [{ id_ := "a", text := "ta" }, { id_ := "b", text := "tb" }]
    insertOk := fun n => decide (n ≠ 0)
    persistIndexOk := true, persistPklOk := true }

/-- An insert environment where every `insert_document` call fails. -/
def failEnv : InsertEnv :=
  { pathExists := true
    load := fun _ => some [{ id_ := "a", text := "t" }]
    insertOk := fun _ => false
    persistIndexOk := true, persistPklOk := true }

/-- An initialized server state that already holds a preview entry for "a". -/
def preState : ServerState :=
  { index := some [], stored_docs := .dict [("a", "old")]
    durable := { indexDir := .saved [], pkl := .dict [("a", "old")] } }

/-! Helper lemmas about the preview dict and the insertion loop. -/

theorem dictSet_self_mem (d : List (String × String)) (k v : String) :
    (k, v) ∈ dictSet d k v := by
  unfold dictSet
  split
  · next h =>
    rcases List.any_eq_true.mp h with ⟨q, hq, hqk⟩
    refine List.mem_map.mpr ⟨q, hq, ?_⟩
    rw [if_pos (of_decide_eq_true hqk)]
  · simp

theorem dictFind_map_set_ne (d : List (String × String)) (k v k' : String)
    (h : k' ≠ k) :
    dictFind (d.map (fun q => if q.1 = k then (k, v) else q)) k' = dictFind d k' := by
  induction d with
  | nil => rfl
  | cons q d ih =>
    unfold dictFind at *
    by_cases hq : q.1 = k
    · simp only [List.map_cons, if_pos hq, List.find?_cons]
      have h1 : (decide ((k, v).1 = k')) = false := by
        simp [Ne.symm h]
      have h2 : (decide (q.1 = k')) = false := by
        simp [hq, Ne.symm h]
      rw [h1, h2]
      exact ih
    · simp only [List.map_cons, if_neg hq, List.find?_cons]
      cases hqe : decide (q.1 = k')
      · exact ih
      · rfl

theorem dictFind_append_ne (d : List (String × String)) (k v k' : String)
    (h : k' ≠ k) :
    dictFind (d ++ [(k, v)]) k' = dictFind d k' := by
  induction d with
  | nil =>
    unfold dictFind
    simp [Ne.symm h]
  | cons q d ih =>
    unfold dictFind at *
    simp only [List.cons_append, List.find?_cons]
    cases hqe : decide (q.1 = k')
    · exact ih
    · rfl

theorem dictFind_dictSet_ne (d : List (String × String)) (k v k' : String)
    (h : k' ≠ k) :
    dictFind (dictSet d k v) k' = dictFind d k' := by
  unfold dictSet
  split
  · exact dictFind_map_set_ne d k v k' h
  · exact dictFind_append_ne d k v k' h

theorem insertLoop_cons_ok (env : InsertEnv) (did : Option String) (p : String)
    (doc : Document) (rest : List Document) (n : Nat) (idx : IndexData)
    (d : List (String × String)) (pr : List String)
    (h : env.insertOk n = true) :
    insertLoop env did p (doc :: rest) n (idx, d, pr) =
      insertLoop env did p rest (n + 1)
        (idx ++ [(effectiveId did p doc, doc.text)],
         dictSet d (effectiveId did p doc) (preview doc.text),
         if pr.contains (effectiveId did p doc) then pr
         else pr ++ [effectiveId did p doc]) := by
  simp [insertLoop, h]

theorem insertLoop_cons_fail (env : InsertEnv) (did : Option String) (p : String)
    (doc : Document) (rest : List Document) (n : Nat) (idx : IndexData)
    (d : List (String × String)) (pr : List String)
    (h : env.insertOk n = false) :
    insertLoop env did p (doc :: rest) n (idx, d, pr) =
      insertLoop env did p rest (n + 1) (idx, d, pr) := by
  simp [insertLoop, h]

theorem insertLoop_fst_append (env : InsertEnv) (did : Option String) (p : String)
    (docs : List Document) :
    ∀ (n : Nat) (idx : IndexData) (d : List (String × String)) (pr : List String),
      ∃ l, (insertLoop env did p docs n (idx, d, pr)).1 = idx ++ l := by
  induction docs with
  | nil =>
    intro n idx d pr
    exact ⟨[], by simp [insertLoop]⟩
  | cons doc rest ih =>
    intro n idx d pr
    cases h : env.insertOk n
    · rw [insertLoop_cons_fail env did p doc rest n idx d pr h]
      exact ih (n + 1) idx d pr
    · rw [insertLoop_cons_ok env did p doc rest n idx d pr h]
      rcases ih (n + 1) (idx ++ [(effectiveId did p doc, doc.text)])
        (dictSet d (effectiveId did p doc) (preview doc.text))
        (if pr.contains (effectiveId did p doc) then pr
         else pr ++ [effectiveId did p doc]) with ⟨l, hl⟩
      refine ⟨(effectiveId did p doc, doc.text) :: l, ?_⟩
      rw [hl, List.append_assoc]
      rfl

theorem insertLoop_processed_append (env : InsertEnv) (did : Option String)
    (p : String) (docs : List Document) :
    ∀ (n : Nat) (idx : IndexData) (d : List (String × String)) (pr : List String),
      ∃ l, (insertLoop env did p docs n (idx, d, pr)).2.2 = pr ++ l := by
  induction docs with
  | nil =>
    intro n idx d pr
    exact ⟨[], by simp [insertLoop]⟩
  | cons doc rest ih =>
    intro n idx d pr
    cases h : env.insertOk n
    · rw [insertLoop_cons_fail env did p doc rest n idx d pr h]
      exact ih (n + 1) idx d pr
    · rw [insertLoop_cons_ok env did p doc rest n idx d pr h]
      by_cases hc : pr.contains (effectiveId did p doc) = true
      · rw [if_pos hc]
        exact ih (n + 1) _ _ pr
      · rw [if_neg hc]
        rcases ih (n + 1) (idx ++ [(effectiveId did p doc, doc.text)])
          (dictSet d (effectiveId did p doc) (preview doc.text))
          (pr ++ [effectiveId did p doc]) with ⟨l, hl⟩
        refine ⟨effectiveId did p doc :: l, ?_⟩
        rw [hl, List.append_assoc]
        rfl

theorem insertLoop_all_fail (env : InsertEnv) (did : Option String) (p : String)
    (docs : List Document) :
    ∀ (n : Nat) (idx : IndexData) (d : List (String × String)) (pr : List String),
      (∀ i < docs.length, env.insertOk (n + i) = false) →
      insertLoop env did p docs n (idx, d, pr) = (idx, d, pr) := by
  induction docs with
  | nil =>
    intro n idx d pr _
    rfl
  | cons doc rest ih =>
    intro n idx d pr hall
    have h0 : env.insertOk n = false := by
      have := hall 0 (by simp)
      simpa using this
    have hrest : ∀ i < rest.length, env.insertOk (n + 1 + i) = false := by
      intro i hi
      have := hall (i + 1) (by simp only [List.length_cons]; omega)
      have harith : n + (i + 1) = n + 1 + i := by omega
      rw [← harith]
      exact this
    rw [insertLoop_cons_fail env did p doc rest n idx d pr h0]
    exact ih (n + 1) idx d pr hrest

theorem insertLoop_processed_ne_nil (env : InsertEnv) (did : Option String)
    (p : String) (docs : List Document) :
    ∀ (n : Nat) (idx : IndexData) (d : List (String × String)) (pr : List String)
      (j : Nat), j < docs.length → env.insertOk (n + j) = true →
      (insertLoop env did p docs n (idx, d, pr)).2.2 ≠ [] := by
  induction docs with
  | nil =>
    intro n idx d pr j hj
    exact absurd hj (by simp)
  | cons doc rest ih =>
    intro n idx d pr j hj hok
    cases j with
    | zero =>
      have h0 : env.insertOk n = true := by simpa using hok
      rw [insertLoop_cons_ok env did p doc rest n idx d pr h0]
      have hpr'ne : (if pr.contains (effectiveId did p doc) then pr
          else pr ++ [effectiveId did p doc]) ≠ [] := by
        split
        · next hc =>
          intro hnil
          rw [hnil] at hc
          simp at hc
        · simp
      rcases insertLoop_processed_append env did p rest (n + 1)
        (idx ++ [(effectiveId did p doc, doc.text)])
        (dictSet d (effectiveId did p doc) (preview doc.text))
        (if pr.contains (effectiveId did p doc) then pr
         else pr ++ [effectiveId did p doc]) with ⟨l, hl⟩
      rw [hl]
      intro hnil
      exact hpr'ne (List.append_eq_nil.mp hnil).1
    | succ j' =>
      have hj' : j' < rest.length := by simpa using hj
      have hok' : env.insertOk (n + 1 + j') = true := by
        have harith : n + 1 + j' = n + (j' + 1) := by omega
        rw [harith]
        exact hok
      cases h : env.insertOk n
      · rw [insertLoop_cons_fail env did p doc rest n idx d pr h]
        exact ih (n + 1) idx d pr j' hj' hok'
      · rw [insertLoop_cons_ok env did p doc rest n idx d pr h]
        exact ih (n + 1) _ _ _ j' hj' hok'

theorem insertLoop_mem_fst (env : InsertEnv) (did : Option String) (p : String)
    (docs : List Document) :
    ∀ (n : Nat) (idx : IndexData) (d : List (String × String)) (pr : List String)
      (j : Nat) (hj : j < docs.length), env.insertOk (n + j) = true →
      (effectiveId did p (docs.get ⟨j, hj⟩), (docs.get ⟨j, hj⟩).text) ∈
        (insertLoop env did p docs n (idx, d, pr)).1 := by
  induction docs with
  | nil =>
    intro n idx d pr j hj
    exact absurd hj (by simp)
  | cons doc rest ih =>
    intro n idx d pr j hj hok
    cases j with
    | zero =>
      have h0 : env.insertOk n = true := by simpa using hok
      rw [insertLoop_cons_ok env did p doc rest n idx d pr h0]
      rcases insertLoop_fst_append env did p rest (n + 1)
        (idx ++ [(effectiveId did p doc, doc.text)])
        (dictSet d (effectiveId did p doc) (preview doc.text))
        (if pr.contains (effectiveId did p doc) then pr
         else pr ++ [effectiveId did p doc]) with ⟨l, hl⟩
      rw [hl]
      simp [List.get]
    | succ j' =>
      have hj' : j' < rest.length := by simpa using hj
      have hok' : env.insertOk (n + 1 + j') = true := by
        have harith : n + 1 + j' = n + (j' + 1) := by omega
        rw [harith]
        exact hok
      have hget : (doc :: rest).get ⟨j' + 1, hj⟩ = rest.get ⟨j', hj'⟩ := rfl
      rw [hget]
      cases h : env.insertOk n
      · rw [insertLoop_cons_fail env did p doc rest n idx d pr h]
        exact ih (n + 1) idx d pr j' hj' hok'
      · rw [insertLoop_cons_ok env did p doc rest n idx d pr h]
        exact ih (n + 1) _ _ _ j' hj' hok'

theorem insertLoop_find_unchanged (env : InsertEnv) (did : Option String)
    (p : String) (docs : List Document) :
    ∀ (n : Nat) (idx : IndexData) (d : List (String × String)) (pr : List String)
      (k : String),
      (∀ (j : Nat) (hj : j < docs.length), env.insertOk (n + j) = true →
        effectiveId did p (docs.get ⟨j, hj⟩) ≠ k) →
      dictFind (insertLoop env did p docs n (idx, d, pr)).2.1 k = dictFind d k := by
  induction docs with
  | nil =>
    intro n idx d pr k _
    rfl
  | cons doc rest ih =>
    intro n idx d pr k hk
    have hkrest : ∀ (j : Nat) (hj : j < rest.length),
        env.insertOk (n + 1 + j) = true →
        effectiveId did p (rest.get ⟨j, hj⟩) ≠ k := by
      intro j hj hok
      have hj1 : j + 1 < (doc :: rest).length := by
        simp only [List.length_cons]
        omega
      have harith : n + 1 + j = n + (j + 1) := by omega
      rw [harith] at hok
      exact hk (j + 1) hj1 hok
    cases h : env.insertOk n
    · rw [insertLoop_cons_fail env did p doc rest n idx d pr h]
      exact ih (n + 1) idx d pr k hkrest
    · have hne : effectiveId did p doc ≠ k := by
        have h0 : (0 : Nat) < (doc :: rest).length := by simp
        have hok0 : env.insertOk (n + 0) = true := by simpa using h
        exact hk 0 h0 hok0
      rw [insertLoop_cons_ok env did p doc rest n idx d pr h]
      rw [ih (n + 1) _ _ _ k hkrest]
      exact dictFind_dictSet_ne d (effectiveId did p doc) (preview doc.text) k
        (fun he => hne he.symm)

theorem insert_into_index_reduce (s : ServerState) (idx0 : IndexData)
    (d0 : List (String × String)) (env : InsertEnv) (p : String)
    (did : Option String) (documents : List Document)
    (hidx : s.index = some idx0) (hdocs : s.stored_docs = .dict d0)
    (hpath : env.pathExists = true) (hload : env.load p = some documents)
    (hne : documents ≠ []) :
    insert_into_index s env p did =
      { state :=
          { index := some (insertLoop env did p documents 0 (idx0, d0, [])).1
            stored_docs := .dict (insertLoop env did p documents 0 (idx0, d0, [])).2.1
            durable :=
              if (insertLoop env did p documents 0 (idx0, d0, [])).2.2 = [] then s.durable
              else
                { indexDir :=
                    if env.persistIndexOk then
                      .saved (insertLoop env did p documents 0 (idx0, d0, [])).1
                    else s.durable.indexDir
                  pkl :=
                    if env.persistPklOk then
                      .dict (insertLoop env did p documents 0 (idx0, d0, [])).2.1
                    else s.durable.pkl } }
        ret := none } := by
  rcases hL : insertLoop env did p documents 0 (idx0, d0, []) with ⟨idxF, docsF, prF⟩
  simp [insert_into_index, hidx, hpath, hload, hdocs, hne, hL]

/-! Claim C1. -/

/-- C1 counterexample: `query_index` on an initialized index with empty query
text invokes the retrieval/synthesis collaborator and hands its answer back —
no `InvalidArgument` error is produced for the empty string. -/
theorem C1_counterexample :
    (query_index initState okEngine "").2 = true ∧
    (query_index initState okEngine "").1 = "answer" := by
  constructor <;> rfl

/-- C1 amended: only an absent text parameter is rejected (a 400 from the
HTTP front end, without invoking the collaborator); an empty query string is
not rejected — it is forwarded to the retrieval/synthesis collaborator and
the collaborator's answer is returned. -/
theorem C1_amended (s : ServerState) (idx : IndexData)
    (engine : String → EngineResult) (r : String)
    (h : s.index = some idx) (hr : engine "" = .ok r) :
    flask_query s engine none = (.badRequest, false) ∧
    query_index s engine "" = (r, true) := by
  refine ⟨rfl, ?_⟩
  unfold query_index
  rw [h, hr]

/-- C1 witness: the amended claim at a concrete state and engine. -/
theorem C1_amended_witness :
    flask_query initState okEngine none = (.badRequest, false) ∧
    query_index initState okEngine "" = ("answer", true) :=
  C1_amended initState [] okEngine "answer" rfl rfl

/-! Claim C2. -/

/-- C2 counterexample: with the collaborator raising "boom", the string
delivered to the caller is "Error during query: boom" — it embeds the raw
underlying error text rather than being a generic message. -/
theorem C2_counterexample :
    (query_index initState boomEngine "q").1 = "Error during query: " ++ "boom" := by
  rfl

/-- C2 amended: any error raised by the retrieval/synthesis collaborator is
caught (the exception does not propagate to the caller), but the caller
receives the message "Error during query: " followed by the raw underlying
error text. -/
theorem C2_amended (s : ServerState) (idx : IndexData)
    (engine : String → EngineResult) (q e : String)
    (h : s.index = some idx) (he : engine q = .raised e) :
    query_index s engine q = ("Error during query: " ++ e, true) := by
  unfold query_index
  rw [h, he]

/-- C2 witness: the amended claim at a concrete state and raising engine. -/
theorem C2_amended_witness :
    query_index initState boomEngine "what" = ("Error during query: " ++ "boom", true) :=
  C2_amended initState [] boomEngine "what" "boom" rfl rfl

/-! Claim C3. -/

/-- C3 counterexample: `insert_into_index` invoked before initialization
returns the same caller-visible value (`None`) as a fully successful insert —
no `NotReady` error signal reaches the caller (the condition is only logged). -/
theorem C3_counterexample :
    (insert_into_index rawState goodEnv "docs/a.txt" none).ret = none ∧
    (insert_into_index rawState goodEnv "docs/a.txt" none).ret =
      (insert_into_index initState goodEnv "docs/a.txt" none).ret := by
  constructor <;> rfl

/-- C3 amended: before initialization, `query_index` fails with the caller-
visible NotReady error string without invoking the collaborator, while
`insert_into_index` leaves the state unchanged and returns `None` with no
caller-visible error signal. -/
theorem C3_amended (s : ServerState) (engine : String → EngineResult)
    (q : String) (env : InsertEnv) (p : String) (d : Option String)
    (h : s.index = none) :
    query_index s engine q = ("Error: Index not ready.", false) ∧
    insert_into_index s env p d = { state := s, ret := none } := by
  constructor
  · unfold query_index
    rw [h]
  · unfold insert_into_index
    rw [h]

/-- C3 witness: the amended claim at the uninitialized state. -/
theorem C3_amended_witness :
    query_index rawState okEngine "hi" = ("Error: Index not ready.", false) ∧
    insert_into_index rawState goodEnv "docs/a.txt" none =
      { state := rawState, ret := none } :=
  C3_amended rawState okEngine "hi" goodEnv "docs/a.txt" none rfl

/-! Claim C5. -/

/-- C5 counterexample: with the caller supplying the (empty) identifier "",
the chunk is tagged with the file's base name "file.txt" — neither the
supplied identifier "" nor the non-empty loader identifier "loader-id" is
used, contradicting the stated precedence order. -/
theorem C5_counterexample :
    (insert_into_index initState loaderIdEnv "dir/file.txt" (some "")).state.index =
      some [("file.txt", "txt")] ∧
    ("file.txt" : String) ≠ "" ∧ ("file.txt" : String) ≠ "loader-id" := by
  refine ⟨rfl, ?_, ?_⟩ <;> decide

/-- C5 amended: the identifier tagged onto an inserted part is
`effectiveId`: the caller-supplied docId when supplied and non-empty; the
file's base name when the supplied docId is empty (the loader identifier is
not consulted); otherwise the loader identifier when non-empty, else the
file's base name. -/
theorem C5_amended (s : ServerState) (idx0 : IndexData)
    (d0 : List (String × String)) (env : InsertEnv) (p : String)
    (doc : Document) (did : Option String) (x : String)
    (hidx : s.index = some idx0) (hdocs : s.stored_docs = .dict d0)
    (hpath : env.pathExists = true) (hload : env.load p = some [doc])
    (hins : env.insertOk 0 = true) (hx : x ≠ "") :
    (insert_into_index s env p did).state.index =
      some (idx0 ++ [(effectiveId did p doc, doc.text)]) ∧
    effectiveId (some x) p doc = x ∧
    effectiveId (some "") p doc = basename p ∧
    (doc.id_ ≠ "" → effectiveId none p doc = doc.id_) ∧
    (doc.id_ = "" → effectiveId none p doc = basename p) := by
  refine ⟨?_, ?_, ?_, ?_, ?_⟩
  · simp [insert_into_index, hidx, hpath, hload, hdocs, insertLoop, hins]
  · simp [effectiveId, hx]
  · simp [effectiveId]
  · intro hne
    simp [effectiveId, hne]
  · intro heq
    simp [effectiveId, heq]

/-- C5 witness: the amended claim at a concrete insert. -/
theorem C5_amended_witness :
    (insert_into_index initState loaderIdEnv "dir/file.txt" none).state.index =
      some ([("loader-id", "txt")]) ∧
    effectiveId (some "d1") "dir/file.txt" { id_ := "loader-id", text := "txt" } = "d1" ∧
    effectiveId (some "") "dir/file.txt" { id_ := "loader-id", text := "txt" } =
      basename "dir/file.txt" ∧
    (Document.id_ { id_ := "loader-id", text := "txt" } ≠ "" →
      effectiveId none "dir/file.txt" { id_ := "loader-id", text := "txt" } = "loader-id") ∧
    (Document.id_ { id_ := "loader-id", text := "txt" } = "" →
      effectiveId none "dir/file.txt" { id_ := "loader-id", text := "txt" } =
        basename "dir/file.txt") :=
  C5_amended initState [] [] loaderIdEnv "dir/file.txt"
    { id_ := "loader-id", text := "txt" } none "d1" rfl rfl rfl rfl rfl (by decide)

/-! Claim C7. -/

/-- C7 counterexample: insert on a nonexistent path returns `None` — the same
caller-visible value as a successful insert — rather than a `NotFound` error;
the state (including Preview Store and durable snapshots) is untouched. -/
theorem C7_counterexample :
    (insert_into_index initState missingEnv "/nonexistent/path" none).ret = none ∧
    (insert_into_index initState missingEnv "/nonexistent/path" none).ret =
      (insert_into_index initState goodEnv "docs/b.txt" none).ret ∧
    (insert_into_index initState missingEnv "/nonexistent/path" none).state =
      initState := by
  refine ⟨rfl, rfl, rfl⟩

/-- C7 amended: insert on a path that does not exist leaves the entire server
state — Preview Store, index handle, and durable snapshots — unchanged and
returns no caller-visible error (`None`); the NotFound condition is only
logged. -/
theorem C7_amended (s : ServerState) (env : InsertEnv) (p : String)
    (d : Option String) (h : env.pathExists = false) :
    insert_into_index s env p d = { state := s, ret := none } := by
  unfold insert_into_index
  cases hidx : s.index <;> simp [h]

/-- C7 witness: the amended claim at a concrete missing path. -/
theorem C7_amended_witness :
    insert_into_index initState missingEnv "/nonexistent/path" (some "d1") =
      { state := initState, ret := none } :=
  C7_amended initState missingEnv "/nonexistent/path" (some "d1") rfl

/-! Claim C4. -/

/-- C4: after a successful `insert(path, docId="d1")` on a loaded part with
non-empty text, `get_documents_list` contains an entry with id "d1" whose
text is the first 200 characters of the source text, followed by "..."
exactly when the text is longer than 200 characters. -/
theorem C4_insert_then_list (s : ServerState) (idx0 : IndexData)
    (d0 : List (String × String)) (env : InsertEnv) (p : String) (doc : Document)
    (hidx : s.index = some idx0) (hdocs : s.stored_docs = .dict d0)
    (hpath : env.pathExists = true) (hload : env.load p = some [doc])
    (hins : env.insertOk 0 = true) (hne : doc.text ≠ "") :
    ("d1", doc.text.take 200 ++ (if doc.text.length > 200 then "..." else "")) ∈
      (get_documents_list (insert_into_index s env p (some "d1")).state).1 := by
  have hne1 : ([doc] : List Document) ≠ [] := by simp
  rw [insert_into_index_reduce s idx0 d0 env p (some "d1") [doc] hidx hdocs hpath
    hload hne1]
  rw [insertLoop_cons_ok env (some "d1") p doc [] 0 idx0 d0 [] hins]
  have heid : effectiveId (some "d1") p doc = "d1" := by
    show (if ("d1" : String) = "" then basename p else "d1") = "d1"
    rw [if_neg (by decide)]
  rw [show insertLoop env (some "d1") p [] 1
      (idx0 ++ [(effectiveId (some "d1") p doc, doc.text)],
       dictSet d0 (effectiveId (some "d1") p doc) (preview doc.text),
       if List.contains [] (effectiveId (some "d1") p doc) then ([] : List String)
       else [] ++ [effectiveId (some "d1") p doc]) =
      (idx0 ++ [(effectiveId (some "d1") p doc, doc.text)],
       dictSet d0 (effectiveId (some "d1") p doc) (preview doc.text),
       if List.contains [] (effectiveId (some "d1") p doc) then ([] : List String)
       else [] ++ [effectiveId (some "d1") p doc]) from rfl]
  rw [heid]
  exact dictSet_self_mem d0 "d1" (preview doc.text)

/-- C4 witness: the confirmed claim at a concrete single-part insert. -/
theorem C4_witness :
    ("d1", ("hello world" : String).take 200 ++
      (if ("hello world" : String).length > 200 then "..." else "")) ∈
      (get_documents_list
        (insert_into_index initState goodEnv "docs/a.txt" (some "d1")).state).1 :=
  C4_insert_then_list initState [] [] goodEnv "docs/a.txt"
    { id_ := "part-0", text := "hello world" } rfl rfl rfl rfl rfl (by decide)

/-! Claim C6. -/

/-- C6: with both persistence writes able to succeed, durable storage is
written exactly when at least one part's `insert_document` succeeded: if no
per-part insertion succeeds (including the zero-parts case) the durable
artifacts are unchanged, and if at least one succeeds both artifacts are
rewritten to the new in-memory index and preview dict. -/
theorem C6_persist_iff_success (s : ServerState) (idx0 : IndexData)
    (d0 : List (String × String)) (env : InsertEnv) (p : String)
    (did : Option String) (documents : List Document)
    (hidx : s.index = some idx0) (hdocs : s.stored_docs = .dict d0)
    (hpath : env.pathExists = true) (hload : env.load p = some documents)
    (hpi : env.persistIndexOk = true) (hpp : env.persistPklOk = true) :
    (anyInsertOk env documents.length = false →
      (insert_into_index s env p did).state.durable = s.durable) ∧
    (anyInsertOk env documents.length = true →
      (insert_into_index s env p did).state.index =
        some (insertLoop env did p documents 0 (idx0, d0, [])).1 ∧
      (insert_into_index s env p did).state.stored_docs =
        StoredDocs.dict (insertLoop env did p documents 0 (idx0, d0, [])).2.1 ∧
      (insert_into_index s env p did).state.durable =
        { indexDir := .saved (insertLoop env did p documents 0 (idx0, d0, [])).1
          pkl := .dict (insertLoop env did p documents 0 (idx0, d0, [])).2.1 }) := by
  constructor
  · intro hAny
    have hall : ∀ i < documents.length, env.insertOk i = false := by
      intro i hi
      cases henv : env.insertOk i
      · rfl
      · exfalso
        have htrue : anyInsertOk env documents.length = true := by
          unfold anyInsertOk
          rw [List.any_eq_true]
          exact ⟨i, List.mem_range.mpr hi, henv⟩
        rw [hAny] at htrue
        exact Bool.false_ne_true htrue
    by_cases hD : documents = []
    · subst hD
      simp [insert_into_index, hidx, hpath, hload]
    · rw [insert_into_index_reduce s idx0 d0 env p did documents hidx hdocs hpath
        hload hD]
      have hloop : insertLoop env did p documents 0 (idx0, d0, []) = (idx0, d0, []) :=
        insertLoop_all_fail env did p documents 0 idx0 d0 []
          (by intro i hi; simpa using hall i hi)
      simp [hloop]
  · intro hAny
    have hAny' : (List.range documents.length).any (fun i => env.insertOk i) = true := by
      simpa [anyInsertOk] using hAny
    rcases List.any_eq_true.mp hAny' with ⟨i, hmem, hok⟩
    have hi : i < documents.length := List.mem_range.mp hmem
    have hD : documents ≠ [] := by
      intro h
      subst h
      simp at hi
    rw [insert_into_index_reduce s idx0 d0 env p did documents hidx hdocs hpath
      hload hD]
    have hpr : (insertLoop env did p documents 0 (idx0, d0, [])).2.2 ≠ [] :=
      insertLoop_processed_ne_nil env did p documents 0 idx0 d0 [] i hi
        (by simpa using hok)
    simp [hpr, hpi, hpp]

/-- C6 witness: the confirmed claim at a concrete single-part insert where
everything succeeds. -/
theorem C6_witness :
    (anyInsertOk goodEnv 1 = false →
      (insert_into_index initState goodEnv "docs/a.txt" none).state.durable =
        initState.durable) ∧
    (anyInsertOk goodEnv 1 = true →
      (insert_into_index initState goodEnv "docs/a.txt" none).state.index =
        some (insertLoop goodEnv none "docs/a.txt"
          [{ id_ := "part-0", text := "hello world" }] 0 ([], [], [])).1 ∧
      (insert_into_index initState goodEnv "docs/a.txt" none).state.stored_docs =
        StoredDocs.dict (insertLoop goodEnv none "docs/a.txt"
          [{ id_ := "part-0", text := "hello world" }] 0 ([], [], [])).2.1 ∧
      (insert_into_index initState goodEnv "docs/a.txt" none).state.durable =
        { indexDir := .saved (insertLoop goodEnv none "docs/a.txt"
            [{ id_ := "part-0", text := "hello world" }] 0 ([], [], [])).1
          pkl := .dict (insertLoop goodEnv none "docs/a.txt"
            [{ id_ := "part-0", text := "hello world" }] 0 ([], [], [])).2.1 }) :=
  C6_persist_iff_success initState [] [] goodEnv "docs/a.txt" none
    [{ id_ := "part-0", text := "hello world" }] rfl rfl rfl rfl rfl rfl

/-! Claim C8. -/

/-- C8: a failed per-part insertion is caught and skipped — every part whose
own `insert_document` succeeds lands in the index regardless of failures at
any other position (the environment is unconstrained elsewhere), and the
caller receives `None`, never a distinct error for the failed part. -/
theorem C8_failure_skipped (s : ServerState) (idx0 : IndexData)
    (d0 : List (String × String)) (env : InsertEnv) (p : String)
    (did : Option String) (documents : List Document) (j : Nat)
    (hj : j < documents.length)
    (hidx : s.index = some idx0) (hdocs : s.stored_docs = .dict d0)
    (hpath : env.pathExists = true) (hload : env.load p = some documents)
    (hok : env.insertOk j = true) :
    (effectiveId did p (documents.get ⟨j, hj⟩), (documents.get ⟨j, hj⟩).text) ∈
      indexChunks (insert_into_index s env p did).state ∧
    (insert_into_index s env p did).ret = none := by
  have hD : documents ≠ [] := by
    intro h
    subst h
    simp at hj
  rw [insert_into_index_reduce s idx0 d0 env p did documents hidx hdocs hpath
    hload hD]
  constructor
  · simpa [indexChunks] using
      insertLoop_mem_fst env did p documents 0 idx0 d0 [] j hj (by simpa using hok)
  · rfl

/-- C8 witness: with the first part failing and the second succeeding, the
second part's chunk is inserted and the caller sees no error. -/
theorem C8_witness :
    (effectiveId none "docs/two.txt" { id_ := "b", text := "tb" },
      (Document.text { id_ := "b", text := "tb" })) ∈
      indexChunks (insert_into_index initState mixedEnv "docs/two.txt" none).state ∧
    (insert_into_index initState mixedEnv "docs/two.txt" none).ret = none :=
  C8_failure_skipped initState [] [] mixedEnv "docs/two.txt" none
    [{ id_ := "a", text := "ta" }, { id_ := "b", text := "tb" }] 1 (by decide)
    rfl rfl rfl rfl rfl

/-! Claim C9. -/

/-- C9: from any durable state whose index snapshot is absent or corrupt and
whose preview file is absent or corrupt, `initialize_index` completes with a
non-null empty index (immediately persisted) and an empty Preview Store, and
a subsequent `get_documents_list` returns the empty sequence. -/
theorem C9_initialize_recovers (s : ServerState)
    (hidx : s.durable.indexDir = .absent ∨ s.durable.indexDir = .corrupt)
    (hpkl : s.durable.pkl = .absent ∨ s.durable.pkl = .corrupt) :
    (initialize_index s).index = some [] ∧
    (initialize_index s).durable.indexDir = .saved [] ∧
    (initialize_index s).stored_docs = .dict [] ∧
    (get_documents_list (initialize_index s)).1 = [] := by
  rcases hidx with h1 | h1 <;> rcases hpkl with h2 | h2 <;>
    simp [initialize_index, get_documents_list, h1, h2]

/-- C9 witness: the confirmed claim on the absent/absent starting state. -/
theorem C9_witness :
    (initialize_index rawState).index = some [] ∧
    (initialize_index rawState).durable.indexDir = .saved [] ∧
    (initialize_index rawState).stored_docs = .dict [] ∧
    (get_documents_list (initialize_index rawState)).1 = [] :=
  C9_initialize_recovers rawState (Or.inl rfl) (Or.inl rfl)

/-! Claim C10. -/

/-- C10: an insert changes the preview entry of an identifier only through a
part whose index insertion succeeded — if no successfully inserted part
carries identifier `k`, the Preview Store's entry for `k` is exactly what it
was before the call, so a failed insertion never creates a preview entry. -/
theorem C10_preview_after_success (s : ServerState) (idx0 : IndexData)
    (d0 docsF : List (String × String)) (env : InsertEnv) (p : String)
    (did : Option String) (documents : List Document) (k : String)
    (hidx : s.index = some idx0) (hdocs : s.stored_docs = .dict d0)
    (hpath : env.pathExists = true) (hload : env.load p = some documents)
    (hsd : (insert_into_index s env p did).state.stored_docs = .dict docsF)
    (hk : ∀ (j : Nat) (hj : j < documents.length), env.insertOk j = true →
      effectiveId did p (documents.get ⟨j, hj⟩) ≠ k) :
    dictFind docsF k = dictFind d0 k := by
  by_cases hD : documents = []
  · subst hD
    have hstate : (insert_into_index s env p did).state.stored_docs = s.stored_docs := by
      simp [insert_into_index, hidx, hpath, hload]
    rw [hstate, hdocs] at hsd
    injection hsd with h
    rw [← h]
  · rw [insert_into_index_reduce s idx0 d0 env p did documents hidx hdocs hpath
      hload hD] at hsd
    simp only [StoredDocs.dict.injEq] at hsd
    rw [← hsd]
    exact insertLoop_find_unchanged env did p documents 0 idx0 d0 [] k
      (fun j hj hok => hk j hj (by simpa using hok))

/-- C10 witness: with the only part's insertion failing, the preview entry
for its identifier is unchanged. -/
theorem C10_witness :
    dictFind [("a", "old")] "a" = dictFind [("a", "old")] "a" :=
  C10_preview_after_success preState [] [("a", "old")] [("a", "old")] failEnv
    "docs/a.txt" none [{ id_ := "a", text := "t" }] "a" rfl rfl rfl rfl rfl
    (by decide)

end IndexServer
